import Mathlib

/-!
Shallow embedding of `visualization/src/common/io.cpp`
(`pcl::visualization::getCorrespondingPointCloud` and
`pcl::visualization::savePointData`).

Modelling conventions:
* 3-D coordinates are rationals (`ℚ`).  The C++ code reads `double`
  coordinates from the displayed `vtkPolyData` and narrows them with
  `static_cast<float>`; the narrowing conversion is carried as an abstract
  parameter `narrow : ℚ → ℚ` applied to each coordinate.
* `pcl::PointCloud<pcl::PointXYZ>` becomes a `PointCloud` record holding an
  ordered list of points plus the `width`/`height`/`is_dense` metadata the
  code sets.
* Distances compare by squared Euclidean distance, as FLANN does.
* File paths / actor names are `List Char`; the external load and save
  collaborators (`pcl::io::loadPCDFile`, `pcl::io::savePCDFile`) are passed
  in as functions, with `Option`/`Bool` results modelling their `-1`
  failure return.
-/

namespace PCLVis

/-- A 3-D point with the working floating-point precision
(`pcl::PointXYZ`); coordinates modelled as exact rationals. -/
structure PointXYZ where
  x : ℚ
  y : ℚ
  z : ℚ
deriving DecidableEq, Repr

/-- Squared Euclidean distance between two points, the quantity the
nearest-neighbor search of `KdTreeFLANN` minimises. -/
def sqDist (p q : PointXYZ) : ℚ :=
  (p.x - q.x) ^ 2 + (p.y - q.y) ^ 2 + (p.z - q.z) ^ 2

/-- Modelled from the spec: the `SpatialIndex` single-nearest-neighbor
query (`pcl::KdTreeFLANN<pcl::PointXYZ>::nearestKSearch` with `k = 1`,
whose implementation is library code outside `src/`).  Returns the index
of a reference point at minimal squared distance together with that
distance, resolving equidistant ties deterministically to the lowest
index (§4.3: "stable index order, e.g., lowest index wins"); returns
`none` exactly on an empty reference cloud, the spec's loudly-failing
precondition violation (§7(c)). -/
def nearestKSearch (q : PointXYZ) : List PointXYZ → Option (Nat × ℚ)
  | [] => none
  | p :: ps =>
    match nearestKSearch q ps with
    | none => some (0, sqDist q p)
    | some (j, d) =>
      if sqDist q p ≤ d then some (0, sqDist q p) else some (j + 1, d)

/-- `pcl::PointCloud<pcl::PointXYZ>`: the point sequence plus the shape
metadata (`width`, `height`, `is_dense`) that `getCorrespondingPointCloud`
sets on its intermediate cloud. -/
structure PointCloud where
  points : List PointXYZ
  width : Nat
  height : Nat
  is_dense : Bool
deriving DecidableEq, Repr

/-- One coordinate triple read from the displayed geometry
(`double p[3]` in the source); narrowed per coordinate by `narrow`,
the model of `static_cast<float>`. -/
def narrowPoint (narrow : ℚ → ℚ) (p : ℚ × ℚ × ℚ) : PointXYZ :=
  ⟨narrow p.1, narrow p.2.1, narrow p.2.2⟩

/-- The first loop of `getCorrespondingPointCloud` (io.cpp lines 59-70):
build a cloud with `height = 1`, `width = src->GetNumberOfPoints()`,
`is_dense = false`, copying every displayed point in order with each
coordinate narrowed from double precision. -/
def extractCloud (narrow : ℚ → ℚ) (src : List (ℚ × ℚ × ℚ)) : PointCloud :=
  { points := src.map (narrowPoint narrow)
    width := src.length
    height := 1
    is_dense := false }

/-- `std::unique` on an already `std::sort`-ed vector: drop adjacent
duplicates (io.cpp line 86). -/
def dedupAdj : List Nat → List Nat
  | [] => []
  | [a] => [a]
  | a :: b :: rest =>
    if a = b then dedupAdj (b :: rest) else a :: dedupAdj (b :: rest)

/-- `pcl::visualization::getCorrespondingPointCloud` (io.cpp lines 53-87):
copy the displayed points into a cloud (narrowing to the working
precision), query the spatial index over `tgt` once per displayed point,
push every returned index onto the caller-supplied `indices` vector
(which is NOT cleared first), then `std::sort` + `std::unique` the whole
vector.  When `tgt` is empty the spatial index yields no neighbor
(`nearestKSearch` returns `none`) and no index is recorded for the query;
in the C++ this case is the spec's §7(c) precondition violation. -/
def getCorrespondingPointCloud (narrow : ℚ → ℚ) (src : List (ℚ × ℚ × ℚ))
    (tgt : List PointXYZ) (indices : List Nat) : List Nat :=
  let cloud := extractCloud narrow src
  let pushed := indices ++
    cloud.points.filterMap (fun point => (nearestKSearch point tgt).map Prod.fst)
  dedupAdj (List.insertionSort (· ≤ ·) pushed)

/-- The `".pcd"` marker looked up in actor display names
(io.cpp line 119). -/
def pcdMarker : List Char := ['.', 'p', 'c', 'd']

/-- `std::string::find`: position of the first occurrence of `pat` as a
contiguous substring, `none` when there is none (`std::string::npos`). -/
def findSub (pat : List Char) : List Char → Option Nat
  | [] => if pat.isPrefixOf ([] : List Char) then some 0 else none
  | c :: rest =>
    if pat.isPrefixOf (c :: rest) then some 0
    else (findSub pat rest).map (· + 1)

/-- io.cpp lines 119-122: locate the first `".pcd"` in the display name;
`none` means the entry is not a point-cloud source.  On success the name
is truncated at the marker and `".pcd"` re-appended
(`file_name.substr(0, position) + ".pcd"`). -/
def stripName (name : List Char) : Option (List Char) :=
  (findSub pcdMarker name).map (fun pos => name.take pos ++ pcdMarker)

/-- Modelled from the spec: the `GeometryDeduplicator`
(`vtkCleanPolyData` with tolerance `0.0` and `PointMergingOn`, library
code outside `src/`).  §4.1: merge exactly-coincident points, keeping a
deterministic first-seen representative; the original order of survivors
is preserved. -/
def dedup0 : List (ℚ × ℚ × ℚ) → List (ℚ × ℚ × ℚ)
  | [] => []
  | p :: rest => p :: dedup0 (rest.filter (fun q => decide (q ≠ p)))
termination_by l => l.length
decreasing_by
  simp only [List.length_cons]
  exact Nat.lt_succ_of_le (List.length_filter_le _ _)

/-- io.cpp line 106: `nr_pts_pruned`, the count the code reports when any
points were merged away: original point count minus cleaned point
count. -/
def nrPtsPruned (data : List (ℚ × ℚ × ℚ)) : Nat :=
  data.length - (dedup0 data).length

/-- io.cpp line 143: the output path `out_file + std::to_string(i) + ".pcd"`
for sequence number `i`. -/
def seqFileName (out_file : List Char) (i : Nat) : List Char :=
  out_file ++ (toString i).toList ++ pcdMarker

/-- The actor loop of `savePointData` (io.cpp lines 113-154), with the
sequence counter `i` made explicit.  `load` is the external
`pcl::io::loadPCDFile` collaborator (`none` = failure, otherwise the XYZ
view of the loaded cloud), `saveOk` the external `pcl::io::savePCDFile`
collaborator (`false` = failure).  Returns the overall success flag and
the list of `(path, contents)` files written, in order; a failed save
writes nothing and aborts, a failed load aborts before any write for that
entry, an entry without the `".pcd"` marker is skipped via `continue`. -/
def savePointDataLoop (load : List Char → Option (List PointXYZ))
    (saveOk : List Char → Bool) (narrow : ℚ → ℚ)
    (display : List (ℚ × ℚ × ℚ)) (out_file : List Char) :
    List (List Char) → Nat → Bool × List (List Char × List PointXYZ)
  | [], _ => (true, [])
  | name :: rest, i =>
    match stripName name with
    | none => savePointDataLoop load saveOk narrow display out_file rest i
    | some file_name =>
      match load file_name with
      | none => (false, [])
      | some cloud_xyz =>
        let indices := getCorrespondingPointCloud narrow display cloud_xyz []
        let cloud_out := indices.filterMap (fun j => cloud_xyz.get? j)
        let out_filename := seqFileName out_file i
        if saveOk out_filename then
          let r := savePointDataLoop load saveOk narrow display out_file rest (i + 1)
          (r.1, (out_filename, cloud_out) :: r.2)
        else (false, [])

/-- `pcl::visualization::savePointData` (io.cpp lines 91-157): clean the
displayed data with tolerance 0 (duplicate merging), then walk the actor
registry with the sequence counter starting at 1. -/
def savePointData (load : List Char → Option (List PointXYZ))
    (saveOk : List Char → Bool) (narrow : ℚ → ℚ)
    (data : List (ℚ × ℚ × ℚ)) (out_file : List Char)
    (actors : List (List Char)) : Bool × List (List Char × List PointXYZ) :=
  savePointDataLoop load saveOk narrow (dedup0 data) out_file actors 1

/-- The actor names that carry the `".pcd"` marker, mapped to their
recovered load paths, in registry order. -/
def markerEntries (actors : List (List Char)) : List (List Char) :=
  actors.filterMap stripName

/-! ### Lemmas about the nearest-neighbor query -/

/-- `nearestKSearch` finds a neighbor exactly when the reference cloud is
non-empty. -/
theorem nearestKSearch_eq_none_iff (q : PointXYZ) (tgt : List PointXYZ) :
    nearestKSearch q tgt = none ↔ tgt = [] := by
  cases tgt with
  | nil => simp [nearestKSearch]
  | cons p ps =>
    simp only [nearestKSearch]
    constructor
    · intro h
      cases hrec : nearestKSearch q ps with
      | none => rw [hrec] at h; simp at h
      | some jd =>
        rw [hrec] at h
        cases jd with
        | mk j d => by_cases hle : sqDist q p ≤ d <;> simp [hle] at h
    · intro h; exact absurd h (List.cons_ne_nil p ps)

/-- Full specification of `nearestKSearch`: the returned index is in
bounds, realises the returned squared distance, that distance is minimal,
and equidistant ties resolve to the lowest index. -/
theorem nearestKSearch_spec (q : PointXYZ) :
    ∀ (tgt : List PointXYZ) (j : Nat) (d : ℚ),
      nearestKSearch q tgt = some (j, d) →
      ∃ hj : j < tgt.length,
        sqDist q (tgt.get ⟨j, hj⟩) = d ∧
        ∀ (k : Nat) (hk : k < tgt.length),
          d ≤ sqDist q (tgt.get ⟨k, hk⟩) ∧
          (sqDist q (tgt.get ⟨k, hk⟩) = d → j ≤ k)
  | [], j, d => by intro h; simp [nearestKSearch] at h
  | p :: ps, j, d => by
    intro h
    cases hrec : nearestKSearch q ps with
    | none =>
      have hnil : ps = [] := (nearestKSearch_eq_none_iff q ps).1 hrec
      subst hnil
      simp only [nearestKSearch, Option.some.injEq, Prod.mk.injEq] at h
      obtain ⟨hj0, hd0⟩ := h
      subst hj0; subst hd0
      refine ⟨by simp, rfl, ?_⟩
      intro k hk
      have hk0 : k = 0 := by
        simp only [List.length_cons, List.length_nil] at hk
        omega
      subst hk0
      exact ⟨le_refl _, fun _ => Nat.le_refl 0⟩
    | some jd =>
      obtain ⟨j', d'⟩ := jd
      obtain ⟨hj', hget', hmin'⟩ := nearestKSearch_spec q ps j' d' hrec
      simp only [nearestKSearch, hrec] at h
      by_cases hle : sqDist q p ≤ d'
      · rw [if_pos hle] at h
        simp only [Option.some.injEq, Prod.mk.injEq] at h
        obtain ⟨hj0, hd0⟩ := h
        subst hj0; subst hd0
        refine ⟨Nat.succ_pos _, rfl, ?_⟩
        intro k hk
        cases k with
        | zero => exact ⟨le_refl _, fun _ => Nat.zero_le _⟩
        | succ k =>
          have hk' : k < ps.length := Nat.lt_of_succ_lt_succ hk
          exact ⟨le_trans hle (hmin' k hk').1, fun _ => Nat.zero_le _⟩
      · rw [if_neg hle] at h
        simp only [Option.some.injEq, Prod.mk.injEq] at h
        obtain ⟨hj0, hd0⟩ := h
        subst hj0; subst hd0
        have hlt : d' < sqDist q p := lt_of_not_le hle
        refine ⟨Nat.succ_lt_succ hj', hget', ?_⟩
        intro k hk
        cases k with
        | zero => exact ⟨le_of_lt hlt, fun heq => absurd heq (ne_of_gt hlt)⟩
        | succ k =>
          have hk' : k < ps.length := Nat.lt_of_succ_lt_succ hk
          have hm := hmin' k hk'
          exact ⟨hm.1, fun heq => Nat.succ_le_succ (hm.2 heq)⟩

/-! ### Lemmas about `dedupAdj` (the `std::unique` model) -/

theorem mem_dedupAdj : ∀ (l : List Nat) (x : Nat), x ∈ dedupAdj l ↔ x ∈ l
  | [], x => by simp [dedupAdj]
  | [a], x => by simp [dedupAdj]
  | a :: b :: rest, x => by
    by_cases hab : a = b
    · subst hab
      have hd : dedupAdj (a :: a :: rest) = dedupAdj (a :: rest) := by
        simp [dedupAdj]
      rw [hd, mem_dedupAdj (a :: rest) x]
      simp only [List.mem_cons]
      tauto
    · simp only [dedupAdj, if_neg hab, List.mem_cons]
      rw [mem_dedupAdj (b :: rest) x]
      simp only [List.mem_cons]

theorem length_dedupAdj_le : ∀ l : List Nat, (dedupAdj l).length ≤ l.length
  | [] => le_refl _
  | [_] => le_refl _
  | a :: b :: rest => by
    by_cases hab : a = b
    · simp only [dedupAdj, if_pos hab]
      exact le_trans (length_dedupAdj_le (b :: rest)) (Nat.le_succ _)
    · simp only [dedupAdj, if_neg hab, List.length_cons]
      exact Nat.succ_le_succ (length_dedupAdj_le (b :: rest))

/-- Adjacent deduplication of a `≤`-sorted list is strictly sorted. -/
theorem pairwise_lt_dedupAdj :
    ∀ l : List Nat, l.Pairwise (· ≤ ·) → (dedupAdj l).Pairwise (· < ·)
  | [], _ => List.Pairwise.nil
  | [a], _ => by simp [dedupAdj]
  | a :: b :: rest, h => by
    rw [List.pairwise_cons] at h
    obtain ⟨hhead, htail⟩ := h
    by_cases hab : a = b
    · simp only [dedupAdj, if_pos hab]
      exact pairwise_lt_dedupAdj (b :: rest) htail
    · simp only [dedupAdj, if_neg hab]
      rw [List.pairwise_cons]
      refine ⟨?_, pairwise_lt_dedupAdj (b :: rest) htail⟩
      intro x hx
      have hxmem : x ∈ b :: rest := (mem_dedupAdj (b :: rest) x).1 hx
      have hax : a ≤ b := hhead b (by simp)
      have halt : a < b := lt_of_le_of_ne hax hab
      rcases List.mem_cons.1 hxmem with hxb | hxr
      · subst hxb; exact halt
      · have hbx : b ≤ x := (List.pairwise_cons.1 htail).1 x hxr
        exact lt_of_lt_of_le halt hbx

/-! ### Corollaries for the sort-then-unique tail of
`getCorrespondingPointCloud` -/

/-- The output of `getCorrespondingPointCloud` is strictly ascending. -/
theorem getCorrespondingPointCloud_pairwise_lt (narrow : ℚ → ℚ)
    (src : List (ℚ × ℚ × ℚ)) (tgt : List PointXYZ) (indices : List Nat) :
    (getCorrespondingPointCloud narrow src tgt indices).Pairwise (· < ·) := by
  simp only [getCorrespondingPointCloud]
  exact pairwise_lt_dedupAdj _ (List.sorted_insertionSort (· ≤ ·) _)

theorem getCorrespondingPointCloud_nodup (narrow : ℚ → ℚ)
    (src : List (ℚ × ℚ × ℚ)) (tgt : List PointXYZ) (indices : List Nat) :
    (getCorrespondingPointCloud narrow src tgt indices).Nodup :=
  (getCorrespondingPointCloud_pairwise_lt narrow src tgt indices).imp ne_of_lt

/-- Membership in the output: an index is there exactly when it was
already in the caller's vector or is the nearest-neighbor index of some
displayed point. -/
theorem mem_getCorrespondingPointCloud (narrow : ℚ → ℚ)
    (src : List (ℚ × ℚ × ℚ)) (tgt : List PointXYZ) (indices : List Nat)
    (j : Nat) :
    j ∈ getCorrespondingPointCloud narrow src tgt indices ↔
      (j ∈ indices ∨
        ∃ p ∈ src, ∃ d, nearestKSearch (narrowPoint narrow p) tgt = some (j, d)) := by
  simp only [getCorrespondingPointCloud]
  rw [mem_dedupAdj, List.mem_insertionSort, List.mem_append]
  constructor
  · rintro (h | h)
    · exact Or.inl h
    · rw [List.mem_filterMap] at h
      obtain ⟨pt, hpt, hmap⟩ := h
      rw [Option.map_eq_some'] at hmap
      obtain ⟨⟨j', d⟩, hsome, hfst⟩ := hmap
      simp only [extractCloud, List.mem_map] at hpt
      obtain ⟨p, hp, rfl⟩ := hpt
      cases hfst
      exact Or.inr ⟨p, hp, d, hsome⟩
  · rintro (h | ⟨p, hp, d, hsome⟩)
    · exact Or.inl h
    · refine Or.inr ?_
      rw [List.mem_filterMap]
      refine ⟨narrowPoint narrow p, ?_, ?_⟩
      · simp only [extractCloud]
        exact List.mem_map_of_mem _ hp
      · rw [hsome]; rfl

theorem length_getCorrespondingPointCloud_le (narrow : ℚ → ℚ)
    (src : List (ℚ × ℚ × ℚ)) (tgt : List PointXYZ) (indices : List Nat) :
    (getCorrespondingPointCloud narrow src tgt indices).length ≤
      indices.length + src.length := by
  simp only [getCorrespondingPointCloud]
  refine le_trans (length_dedupAdj_le _) ?_
  rw [(List.perm_insertionSort (· ≤ ·) _).length_eq, List.length_append]
  have : ((extractCloud narrow src).points.filterMap
      (fun point => (nearestKSearch point tgt).map Prod.fst)).length ≤ src.length := by
    refine le_trans (List.length_filterMap_le _ _) ?_
    simp [extractCloud]
  omega

/-! ### Lemmas about `dedup0` (the tolerance-0 `GeometryDeduplicator`) -/

theorem mem_dedup0 (l : List (ℚ × ℚ × ℚ)) (x : ℚ × ℚ × ℚ) :
    x ∈ dedup0 l ↔ x ∈ l := by
  induction l using dedup0.induct with
  | case1 => simp [dedup0]
  | case2 p rest ih =>
    rw [dedup0]
    simp only [List.mem_cons]
    constructor
    · rintro (h | h)
      · exact Or.inl h
      · have := ih.1 h
        rw [List.mem_filter] at this
        exact Or.inr this.1
    · rintro (h | h)
      · exact Or.inl h
      · by_cases hxp : x = p
        · exact Or.inl hxp
        · refine Or.inr (ih.2 ?_)
          rw [List.mem_filter]
          exact ⟨h, by simpa using hxp⟩

theorem nodup_dedup0 (l : List (ℚ × ℚ × ℚ)) : (dedup0 l).Nodup := by
  induction l using dedup0.induct with
  | case1 => simp [dedup0]
  | case2 p rest ih =>
    rw [dedup0]
    refine List.nodup_cons.2 ⟨?_, ih⟩
    intro hmem
    have h := (mem_dedup0 _ _).1 hmem
    rw [List.mem_filter] at h
    simpa using h.2

theorem length_dedup0_le (l : List (ℚ × ℚ × ℚ)) :
    (dedup0 l).length ≤ l.length := by
  induction l using dedup0.induct with
  | case1 => simp [dedup0]
  | case2 p rest ih =>
    rw [dedup0]
    simp only [List.length_cons]
    exact Nat.succ_le_succ (le_trans ih (List.length_filter_le _ _))

/-! ### Lemmas about `findSub` (the `std::string::find` model) -/

/-- When `findSub` reports position `pos`, the pattern occurs there and at
no earlier position: it is the FIRST occurrence. -/
theorem findSub_some (pat : List Char) :
    ∀ (s : List Char) (pos : Nat), findSub pat s = some pos →
      pat.isPrefixOf (s.drop pos) = true ∧
      ∀ j, j < pos → pat.isPrefixOf (s.drop j) = false
  | [], pos => by
    intro h
    simp only [findSub] at h
    by_cases hp : pat.isPrefixOf ([] : List Char)
    · rw [if_pos hp] at h
      cases h
      exact ⟨hp, fun j hj => absurd hj (Nat.not_lt_zero j)⟩
    · rw [if_neg hp] at h
      cases h
  | c :: rest, pos => by
    intro h
    simp only [findSub] at h
    by_cases hp : pat.isPrefixOf (c :: rest)
    · rw [if_pos hp] at h
      cases h
      exact ⟨hp, fun j hj => absurd hj (Nat.not_lt_zero j)⟩
    · rw [if_neg hp] at h
      rw [Option.map_eq_some'] at h
      obtain ⟨pos', hrec, hpos⟩ := h
      subst hpos
      obtain ⟨hpref, hmin⟩ := findSub_some pat rest pos' hrec
      refine ⟨hpref, ?_⟩
      intro j hj
      cases j with
      | zero =>
        simp only [List.drop_zero]
        exact Bool.eq_false_iff.2 hp
      | succ j => exact hmin j (Nat.lt_of_succ_lt_succ hj)

/-- When `findSub` reports no occurrence (`std::string::npos`), the
pattern occurs nowhere. -/
theorem findSub_none (pat : List Char) :
    ∀ s : List Char, findSub pat s = none →
      ∀ j, pat.isPrefixOf (s.drop j) = false
  | [] => by
    intro h j
    simp only [findSub] at h
    by_cases hp : pat.isPrefixOf ([] : List Char)
    · rw [if_pos hp] at h; cases h
    · simpa using Bool.eq_false_iff.2 hp
  | c :: rest => by
    intro h j
    simp only [findSub] at h
    by_cases hp : pat.isPrefixOf (c :: rest)
    · rw [if_pos hp] at h; cases h
    · rw [if_neg hp] at h
      have hrec : findSub pat rest = none := by
        cases hr : findSub pat rest with
        | none => rfl
        | some v => rw [hr] at h; simp at h
      cases j with
      | zero =>
        simp only [List.drop_zero]
        exact Bool.eq_false_iff.2 hp
      | succ j => exact findSub_none pat rest hrec j

/-! ### Lemmas about the `savePointData` actor loop -/

/-- An entry whose display name has no `".pcd"` marker is skipped
outright: the loop state (sequence counter included) is untouched. -/
theorem savePointDataLoop_skip (load : List Char → Option (List PointXYZ))
    (saveOk : List Char → Bool) (narrow : ℚ → ℚ)
    (display : List (ℚ × ℚ × ℚ)) (out_file : List Char)
    (name : List Char) (rest : List (List Char)) (i : Nat)
    (h : stripName name = none) :
    savePointDataLoop load saveOk narrow display out_file (name :: rest) i =
      savePointDataLoop load saveOk narrow display out_file rest i := by
  simp only [savePointDataLoop, h]

/-- Unfolding: a marker entry whose load fails aborts the loop at once
with overall failure and no further writes. -/
theorem savePointDataLoop_cons_loadfail (load : List Char → Option (List PointXYZ))
    (saveOk : List Char → Bool) (narrow : ℚ → ℚ)
    (display : List (ℚ × ℚ × ℚ)) (out_file : List Char)
    (name : List Char) (rest : List (List Char)) (i : Nat) (f : List Char)
    (hstrip : stripName name = some f) (hload : load f = none) :
    savePointDataLoop load saveOk narrow display out_file (name :: rest) i =
      (false, []) := by
  simp only [savePointDataLoop, hstrip, hload]

/-- Unfolding: a marker entry that loads as `c` is matched against the
display, written to the next sequentially numbered file if the save
succeeds (then the loop continues with the counter bumped), and aborts
the whole loop if the save fails. -/
theorem savePointDataLoop_cons_some (load : List Char → Option (List PointXYZ))
    (saveOk : List Char → Bool) (narrow : ℚ → ℚ)
    (display : List (ℚ × ℚ × ℚ)) (out_file : List Char)
    (name : List Char) (rest : List (List Char)) (i : Nat) (f : List Char)
    (c : List PointXYZ)
    (hstrip : stripName name = some f) (hload : load f = some c) :
    savePointDataLoop load saveOk narrow display out_file (name :: rest) i =
      (if saveOk (seqFileName out_file i) then
        ((savePointDataLoop load saveOk narrow display out_file rest (i + 1)).1,
          (seqFileName out_file i,
            (getCorrespondingPointCloud narrow display c []).filterMap
              (fun j => c.get? j)) ::
            (savePointDataLoop load saveOk narrow display out_file rest (i + 1)).2)
      else (false, [])) := by
  simp only [savePointDataLoop, hstrip, hload]

/-- The loop succeeds exactly when every marker entry, in order, loads
successfully and its sequentially numbered output file saves
successfully. -/
theorem savePointDataLoop_true_iff (load : List Char → Option (List PointXYZ))
    (saveOk : List Char → Bool) (narrow : ℚ → ℚ)
    (display : List (ℚ × ℚ × ℚ)) (out_file : List Char) :
    ∀ (actors : List (List Char)) (i : Nat),
      (savePointDataLoop load saveOk narrow display out_file actors i).1 = true ↔
        ∀ k, k < (markerEntries actors).length →
          ((∃ c, load ((markerEntries actors).getD k []) = some c) ∧
            saveOk (seqFileName out_file (i + k)) = true)
  | [], i => by
    simp [savePointDataLoop, markerEntries]
  | name :: rest, i => by
    cases hstrip : stripName name with
    | none =>
      rw [savePointDataLoop_skip load saveOk narrow display out_file name rest i hstrip]
      have hm : markerEntries (name :: rest) = markerEntries rest := by
        simp [markerEntries, List.filterMap_cons, hstrip]
      rw [savePointDataLoop_true_iff load saveOk narrow display out_file rest i, hm]
    | some f =>
      have hm : markerEntries (name :: rest) = f :: markerEntries rest := by
        simp [markerEntries, List.filterMap_cons, hstrip]
      rw [hm]
      cases hload : load f with
      | none =>
        rw [savePointDataLoop_cons_loadfail load saveOk narrow display out_file
          name rest i f hstrip hload]
        constructor
        · intro h; exact absurd h (by simp)
        · intro hall
          obtain ⟨⟨c, hc⟩, _⟩ := hall 0 (by simp)
          rw [List.getD_cons_zero, hload] at hc
          cases hc
      | some c =>
        rw [savePointDataLoop_cons_some load saveOk narrow display out_file
          name rest i f c hstrip hload]
        by_cases hsave : saveOk (seqFileName out_file i) = true
        · rw [if_pos hsave]
          show ((savePointDataLoop load saveOk narrow display out_file rest (i + 1)).1
              = true) ↔ _
          rw [savePointDataLoop_true_iff load saveOk narrow display out_file rest (i + 1)]
          constructor
          · intro hrec k hk
            cases k with
            | zero =>
              refine ⟨⟨c, by simp [hload]⟩, ?_⟩
              rw [Nat.add_zero]
              exact hsave
            | succ k =>
              have hk' : k < (markerEntries rest).length := by
                simpa using Nat.lt_of_succ_lt_succ hk
              obtain ⟨hl, hs⟩ := hrec k hk'
              refine ⟨by simpa using hl, ?_⟩
              rw [show i + (k + 1) = i + 1 + k by omega]
              exact hs
          · intro hall k hk
            obtain ⟨hl, hs⟩ := hall (k + 1) (by simpa using Nat.succ_lt_succ hk)
            refine ⟨by simpa using hl, ?_⟩
            rw [show i + 1 + k = i + (k + 1) by omega]
            exact hs
        · rw [if_neg hsave]
          constructor
          · intro h; exact absurd h (by simp)
          · intro hall
            obtain ⟨_, hs⟩ := hall 0 (by simp)
            rw [Nat.add_zero] at hs
            exact absurd hs hsave

/-- Every file the loop writes is named with the next sequence number:
the `k`-th written file (0-based) of a loop started at counter `i` has
path `seqFileName out_file (i + k)`. -/
theorem savePointDataLoop_written (load : List Char → Option (List PointXYZ))
    (saveOk : List Char → Bool) (narrow : ℚ → ℚ)
    (display : List (ℚ × ℚ × ℚ)) (out_file : List Char) :
    ∀ (actors : List (List Char)) (i k : Nat),
      k < (savePointDataLoop load saveOk narrow display out_file actors i).2.length →
      ((savePointDataLoop load saveOk narrow display out_file actors i).2.getD k
          ([], [])).1 = seqFileName out_file (i + k)
  | [], i, k => by
    simp [savePointDataLoop]
  | name :: rest, i, k => by
    intro hk
    cases hstrip : stripName name with
    | none =>
      rw [savePointDataLoop_skip load saveOk narrow display out_file name rest i hstrip] at hk ⊢
      exact savePointDataLoop_written load saveOk narrow display out_file rest i k hk
    | some f =>
      cases hload : load f with
      | none =>
        rw [savePointDataLoop_cons_loadfail load saveOk narrow display out_file
          name rest i f hstrip hload] at hk
        simp at hk
      | some c =>
        rw [savePointDataLoop_cons_some load saveOk narrow display out_file
          name rest i f c hstrip hload] at hk ⊢
        by_cases hsave : saveOk (seqFileName out_file i) = true
        · rw [if_pos hsave] at hk ⊢
          simp only [List.length_cons] at hk
          cases k with
          | zero => simp
          | succ k =>
            have hk' : k <
                (savePointDataLoop load saveOk narrow display out_file rest (i + 1)).2.length :=
              Nat.lt_of_succ_lt_succ hk
            show ((savePointDataLoop load saveOk narrow display out_file rest
              (i + 1)).2.getD k ([], [])).1 = _
            rw [show i + (k + 1) = i + 1 + k by omega]
            exact savePointDataLoop_written load saveOk narrow display out_file rest
              (i + 1) k hk'
        · rw [if_neg hsave] at hk
          simp at hk

/-- On overall success exactly one file was written per marker entry. -/
theorem savePointDataLoop_true_length (load : List Char → Option (List PointXYZ))
    (saveOk : List Char → Bool) (narrow : ℚ → ℚ)
    (display : List (ℚ × ℚ × ℚ)) (out_file : List Char) :
    ∀ (actors : List (List Char)) (i : Nat),
      (savePointDataLoop load saveOk narrow display out_file actors i).1 = true →
      (savePointDataLoop load saveOk narrow display out_file actors i).2.length =
        (markerEntries actors).length
  | [], i => by simp [savePointDataLoop, markerEntries]
  | name :: rest, i => by
    intro h
    cases hstrip : stripName name with
    | none =>
      rw [savePointDataLoop_skip load saveOk narrow display out_file name rest i hstrip] at h ⊢
      rw [show markerEntries (name :: rest) = markerEntries rest by
        simp [markerEntries, List.filterMap_cons, hstrip]]
      exact savePointDataLoop_true_length load saveOk narrow display out_file rest i h
    | some f =>
      rw [show markerEntries (name :: rest) = f :: markerEntries rest by
        simp [markerEntries, List.filterMap_cons, hstrip]]
      cases hload : load f with
      | none =>
        rw [savePointDataLoop_cons_loadfail load saveOk narrow display out_file
          name rest i f hstrip hload] at h
        simp at h
      | some c =>
        rw [savePointDataLoop_cons_some load saveOk narrow display out_file
          name rest i f c hstrip hload] at h ⊢
        by_cases hsave : saveOk (seqFileName out_file i) = true
        · rw [if_pos hsave] at h ⊢
          simp only [List.length_cons]
          exact congrArg Nat.succ
            (savePointDataLoop_true_length load saveOk narrow display out_file rest (i + 1)
              (by simpa using h))
        · rw [if_neg hsave] at h
          simp at h

/-! ### Claim theorems -/

/-- Claim C1: for every displayed point sequence and every non-empty
reference cloud, the index sequence produced by
`getCorrespondingPointCloud` is strictly ascending and contains no
repeated index; an index that is the nearest neighbor of some displayed
point appears exactly once, no matter how many displayed points map to
it. -/
theorem c1_output_sorted_unique (narrow : ℚ → ℚ) (src : List (ℚ × ℚ × ℚ))
    (tgt : List PointXYZ) (indices : List Nat) (htgt : tgt ≠ []) :
    (getCorrespondingPointCloud narrow src tgt indices).Pairwise (· < ·) ∧
    (∀ j : Nat, (getCorrespondingPointCloud narrow src tgt indices).count j ≤ 1) ∧
    (∀ p, p ∈ src → ∀ (j : Nat) (d : ℚ),
      nearestKSearch (narrowPoint narrow p) tgt = some (j, d) →
      (getCorrespondingPointCloud narrow src tgt indices).count j = 1) := by
  refine ⟨getCorrespondingPointCloud_pairwise_lt narrow src tgt indices, ?_, ?_⟩
  · intro j
    exact List.nodup_iff_count_le_one.1
      (getCorrespondingPointCloud_nodup narrow src tgt indices) j
  · intro p hp j d hnear
    have hmem : j ∈ getCorrespondingPointCloud narrow src tgt indices :=
      (mem_getCorrespondingPointCloud narrow src tgt indices j).2
        (Or.inr ⟨p, hp, d, hnear⟩)
    exact List.count_eq_one_of_mem
      (getCorrespondingPointCloud_nodup narrow src tgt indices) hmem

/-- Claim C1 witness: two displayed points both nearest to reference
index 2 yield an output in which index 2 appears exactly once. -/
theorem c1_output_sorted_unique_witness :
    (getCorrespondingPointCloud id [(0, 1, 0), (0, 1, 0)]
      [⟨0, 0, 0⟩, ⟨1, 0, 0⟩, ⟨0, 1, 0⟩, ⟨5, 5, 5⟩] []).count 2 = 1 :=
  (c1_output_sorted_unique id [(0, 1, 0), (0, 1, 0)]
      [⟨0, 0, 0⟩, ⟨1, 0, 0⟩, ⟨0, 1, 0⟩, ⟨5, 5, 5⟩] [] (by decide)).2.2
    (0, 1, 0) (List.mem_cons_self _ _) 2 0
    (by norm_num [nearestKSearch, sqDist, narrowPoint])

/-- Claim C3: with a fresh output vector and a non-empty reference cloud,
every displayed point's nearest-neighbor index is in the result; for a
non-empty displayed sequence the result size lies between 1 and
`min src.length tgt.length`; an empty displayed sequence yields the empty
index set. -/
theorem c3_coverage_bounds (narrow : ℚ → ℚ) (src : List (ℚ × ℚ × ℚ))
    (tgt : List PointXYZ) (htgt : tgt ≠ []) :
    (∀ p, p ∈ src → ∃ (j : Nat) (d : ℚ),
      nearestKSearch (narrowPoint narrow p) tgt = some (j, d) ∧
      j ∈ getCorrespondingPointCloud narrow src tgt []) ∧
    (src ≠ [] →
      1 ≤ (getCorrespondingPointCloud narrow src tgt []).length ∧
      (getCorrespondingPointCloud narrow src tgt []).length ≤
        min src.length tgt.length) ∧
    getCorrespondingPointCloud narrow [] tgt [] = [] := by
  have hcover : ∀ p, p ∈ src → ∃ (j : Nat) (d : ℚ),
      nearestKSearch (narrowPoint narrow p) tgt = some (j, d) ∧
      j ∈ getCorrespondingPointCloud narrow src tgt [] := by
    intro p hp
    cases hnear : nearestKSearch (narrowPoint narrow p) tgt with
    | none => exact absurd ((nearestKSearch_eq_none_iff _ tgt).1 hnear) htgt
    | some jd =>
      obtain ⟨j, d⟩ := jd
      refine ⟨j, d, rfl, ?_⟩
      exact (mem_getCorrespondingPointCloud narrow src tgt [] j).2
        (Or.inr ⟨p, hp, d, hnear⟩)
  refine ⟨hcover, ?_, rfl⟩
  intro hsrc
  constructor
  · obtain ⟨p, hp⟩ := List.exists_mem_of_ne_nil src hsrc
    obtain ⟨j, d, _, hmem⟩ := hcover p hp
    exact List.length_pos.2 (List.ne_nil_of_mem hmem)
  · refine le_min ?_ ?_
    · have := length_getCorrespondingPointCloud_le narrow src tgt []
      simpa using this
    · have hsub : getCorrespondingPointCloud narrow src tgt [] ⊆
          List.range tgt.length := by
        intro j hj
        rcases (mem_getCorrespondingPointCloud narrow src tgt [] j).1 hj with
          h | ⟨p, _, d, hnear⟩
        · cases h
        · obtain ⟨hj', _, _⟩ := nearestKSearch_spec _ tgt j d hnear
          exact List.mem_range.2 hj'
      have hnd := getCorrespondingPointCloud_nodup narrow src tgt []
      have := (List.subperm_of_subset hnd hsub).length_le
      simpa using this

/-- Claim C3 witness: one displayed point against a two-point reference
cloud gives a result of size exactly 1. -/
theorem c3_coverage_bounds_witness :
    1 ≤ (getCorrespondingPointCloud id [(1, 0, 0)] [⟨0, 0, 0⟩, ⟨1, 0, 0⟩] []).length ∧
    (getCorrespondingPointCloud id [(1, 0, 0)] [⟨0, 0, 0⟩, ⟨1, 0, 0⟩] []).length ≤
      min (List.length [((1 : ℚ), (0 : ℚ), (0 : ℚ))])
        (List.length [(⟨0, 0, 0⟩ : PointXYZ), ⟨1, 0, 0⟩]) :=
  (c3_coverage_bounds id [(1, 0, 0)] [⟨0, 0, 0⟩, ⟨1, 0, 0⟩] (by decide)).2.1 (by decide)

/-- Claim C4: `getCorrespondingPointCloud` is a pure function — two runs
on identical inputs give the identical output — and nearest-neighbor ties
resolve stably to the lowest reference index. -/
theorem c4_deterministic (n1 n2 : ℚ → ℚ) (s1 s2 : List (ℚ × ℚ × ℚ))
    (t1 t2 : List PointXYZ) (i1 i2 : List Nat)
    (hn : n1 = n2) (hs : s1 = s2) (ht : t1 = t2) (hi : i1 = i2) :
    getCorrespondingPointCloud n1 s1 t1 i1 =
      getCorrespondingPointCloud n2 s2 t2 i2 ∧
    ∀ (q : PointXYZ) (j : Nat) (d : ℚ), nearestKSearch q t1 = some (j, d) →
      ∀ (k : Nat) (hk : k < t1.length),
        sqDist q (t1.get ⟨k, hk⟩) = d → j ≤ k := by
  subst hn; subst hs; subst ht; subst hi
  refine ⟨rfl, ?_⟩
  intro q j d h k hk heq
  obtain ⟨hj, _, hmin⟩ := nearestKSearch_spec q t1 j d h
  exact (hmin k hk).2 heq

/-- Claim C4 witness: on a reference cloud with two points equidistant
from the query, the tie resolves to index 0 (so `0 ≤ 1`), and the run is
reproducible. -/
theorem c4_deterministic_witness :
    getCorrespondingPointCloud id [(0, 0, 0)] [⟨1, 0, 0⟩, ⟨-1, 0, 0⟩] [] =
      getCorrespondingPointCloud id [(0, 0, 0)] [⟨1, 0, 0⟩, ⟨-1, 0, 0⟩] [] ∧
    (0 : Nat) ≤ 1 :=
  ⟨(c4_deterministic id id [(0, 0, 0)] [(0, 0, 0)]
      [⟨1, 0, 0⟩, ⟨-1, 0, 0⟩] [⟨1, 0, 0⟩, ⟨-1, 0, 0⟩] [] [] rfl rfl rfl rfl).1,
   (c4_deterministic id id [(0, 0, 0)] [(0, 0, 0)]
      [⟨1, 0, 0⟩, ⟨-1, 0, 0⟩] [⟨1, 0, 0⟩, ⟨-1, 0, 0⟩] [] [] rfl rfl rfl rfl).2
      ⟨0, 0, 0⟩ 0 1 (by norm_num [nearestKSearch, sqDist]) 1 (by decide)
      (by norm_num [sqDist, List.get])⟩

/-- Claim C7: the intermediate cloud built by `getCorrespondingPointCloud`
has height 1, width equal to the displayed point count, `is_dense` false,
and copies each displayed point in order with coordinates narrowed to the
working precision. -/
theorem c7_extract_shape (narrow : ℚ → ℚ) (src : List (ℚ × ℚ × ℚ)) (k : Nat)
    (hk : k < src.length)
    (hk2 : k < (extractCloud narrow src).points.length) :
    (extractCloud narrow src).height = 1 ∧
    (extractCloud narrow src).width = src.length ∧
    (extractCloud narrow src).is_dense = false ∧
    (extractCloud narrow src).points.length = src.length ∧
    (extractCloud narrow src).points.get ⟨k, hk2⟩ =
      narrowPoint narrow (src.get ⟨k, hk⟩) := by
  refine ⟨rfl, rfl, rfl, by simp [extractCloud], ?_⟩
  simp [extractCloud]

/-- Claim C7 witness: concrete one-point geometry. -/
theorem c7_extract_shape_witness :
    (extractCloud id [((1 : ℚ), (2 : ℚ), (3 : ℚ))]).height = 1 ∧
    (extractCloud id [((1 : ℚ), (2 : ℚ), (3 : ℚ))]).width =
      (List.length [((1 : ℚ), (2 : ℚ), (3 : ℚ))]) ∧
    (extractCloud id [((1 : ℚ), (2 : ℚ), (3 : ℚ))]).is_dense = false ∧
    (extractCloud id [((1 : ℚ), (2 : ℚ), (3 : ℚ))]).points.length =
      (List.length [((1 : ℚ), (2 : ℚ), (3 : ℚ))]) ∧
    (extractCloud id [((1 : ℚ), (2 : ℚ), (3 : ℚ))]).points.get ⟨0, by decide⟩ =
      narrowPoint id (List.get [((1 : ℚ), (2 : ℚ), (3 : ℚ))] ⟨0, by decide⟩) :=
  c7_extract_shape id [((1 : ℚ), (2 : ℚ), (3 : ℚ))] 0 (by decide) (by decide)

/-- Claim C8: the spatial-index query fails detectably (returns `none`)
exactly on an empty reference cloud; under the non-empty precondition
every query yields an in-bounds index, so the read of `nn_indices[0]`
is safe. -/
theorem c8_spatial_precondition (q : PointXYZ) (tgt : List PointXYZ)
    (htgt : tgt ≠ []) :
    (∀ t : List PointXYZ, nearestKSearch q t = none ↔ t = []) ∧
    ∃ (j : Nat) (d : ℚ), nearestKSearch q tgt = some (j, d) ∧ j < tgt.length := by
  refine ⟨nearestKSearch_eq_none_iff q, ?_⟩
  cases h : nearestKSearch q tgt with
  | none => exact absurd ((nearestKSearch_eq_none_iff q tgt).1 h) htgt
  | some jd =>
    obtain ⟨j, d⟩ := jd
    obtain ⟨hj, _, _⟩ := nearestKSearch_spec q tgt j d h
    exact ⟨j, d, rfl, hj⟩

/-- Claim C8 witness: a singleton reference cloud yields a valid index. -/
theorem c8_spatial_precondition_witness :
    ∃ (j : Nat) (d : ℚ), nearestKSearch ⟨0, 0, 0⟩ [⟨1, 2, 3⟩] = some (j, d) ∧
      j < (List.length [(⟨1, 2, 3⟩ : PointXYZ)]) :=
  (c8_spatial_precondition ⟨0, 0, 0⟩ [⟨1, 2, 3⟩] (by decide)).2

/-- Claim C9: after tolerance-0 deduplication no two output points are
identical, the survivors are exactly the distinct input points, and the
pruned count plus the cleaned count recovers the original count. -/
theorem c9_dedup_counts (data : List (ℚ × ℚ × ℚ)) :
    (dedup0 data).Nodup ∧
    (∀ p, p ∈ dedup0 data ↔ p ∈ data) ∧
    (dedup0 data).length + nrPtsPruned data = data.length := by
  refine ⟨nodup_dedup0 data, mem_dedup0 data, ?_⟩
  have h := length_dedup0_le data
  unfold nrPtsPruned
  omega

/-- Claim C10: `getCorrespondingPointCloud` appends to the caller's
vector: the output is the sorted duplicate-free union of the pre-existing
entries and the new nearest-neighbor matches, and with a non-empty
initial vector the result is not a function of the two clouds alone. -/
theorem c10_appends_to_caller_vector (narrow : ℚ → ℚ)
    (src : List (ℚ × ℚ × ℚ)) (tgt : List PointXYZ) (indices : List Nat) :
    (∀ j : Nat, j ∈ getCorrespondingPointCloud narrow src tgt indices ↔
      (j ∈ indices ∨ ∃ p ∈ src, ∃ d : ℚ,
        nearestKSearch (narrowPoint narrow p) tgt = some (j, d))) ∧
    getCorrespondingPointCloud (fun x => x) [] [⟨0, 0, 0⟩] [5] ≠
      getCorrespondingPointCloud (fun x => x) [] [⟨0, 0, 0⟩] [] := by
  exact ⟨mem_getCorrespondingPointCloud narrow src tgt indices, by decide⟩

/-- Claim C2: `savePointData` is fail-fast.  It returns `true` exactly
when every marker entry loads and its sequentially numbered save
succeeds; and when, among three source entries, the second one fails to
load, the result is overall failure with exactly the first entry's file
written (regardless of the third entry, which is never processed). -/
theorem c2_fail_fast (load : List Char → Option (List PointXYZ))
    (saveOk : List Char → Bool) (narrow : ℚ → ℚ)
    (data : List (ℚ × ℚ × ℚ)) (out_file : List Char) :
    (∀ actors : List (List Char),
      ((savePointData load saveOk narrow data out_file actors).1 = true ↔
        ∀ k, k < (markerEntries actors).length →
          ((∃ c, load ((markerEntries actors).getD k []) = some c) ∧
            saveOk (seqFileName out_file (k + 1)) = true))) ∧
    (∀ (n1 n2 n3 f1 f2 : List Char) (c1 : List PointXYZ),
      stripName n1 = some f1 → load f1 = some c1 →
      stripName n2 = some f2 → load f2 = none →
      saveOk (seqFileName out_file 1) = true →
      savePointData load saveOk narrow data out_file [n1, n2, n3] =
        (false, [(seqFileName out_file 1,
          (getCorrespondingPointCloud narrow (dedup0 data) c1 []).filterMap
            (fun j => c1.get? j))])) := by
  constructor
  · intro actors
    show (savePointDataLoop load saveOk narrow (dedup0 data) out_file actors 1).1
        = true ↔ _
    rw [savePointDataLoop_true_iff load saveOk narrow (dedup0 data) out_file actors 1]
    constructor
    · intro h k hk
      obtain ⟨hl, hs⟩ := h k hk
      rw [show (1 : Nat) + k = k + 1 by omega] at hs
      exact ⟨hl, hs⟩
    · intro h k hk
      obtain ⟨hl, hs⟩ := h k hk
      rw [show k + 1 = (1 : Nat) + k by omega] at hs
      exact ⟨hl, hs⟩
  · intro n1 n2 n3 f1 f2 c1 h1 hl1 h2 hl2 hs1
    show savePointDataLoop load saveOk narrow (dedup0 data) out_file [n1, n2, n3] 1 = _
    rw [savePointDataLoop_cons_some load saveOk narrow (dedup0 data) out_file
      n1 [n2, n3] 1 f1 c1 h1 hl1]
    rw [if_pos hs1]
    rw [savePointDataLoop_cons_loadfail load saveOk narrow (dedup0 data) out_file
      n2 [n3] 2 f2 h2 hl2]

/-- Claim C2 witness: a concrete three-entry registry whose second entry
fails to load produces failure with exactly one written file. -/
theorem c2_fail_fast_witness :
    savePointData
      (fun s => if s = 'a' :: pcdMarker then some [⟨0, 0, 0⟩] else none)
      (fun _ => true) id [] ['o']
      ['a' :: pcdMarker, 'b' :: pcdMarker, 'x' :: pcdMarker] =
      (false, [(seqFileName ['o'] 1,
        (getCorrespondingPointCloud id (dedup0 []) [⟨0, 0, 0⟩] []).filterMap
          (fun j => List.get? [(⟨0, 0, 0⟩ : PointXYZ)] j))]) :=
  (c2_fail_fast
      (fun s => if s = 'a' :: pcdMarker then some [⟨0, 0, 0⟩] else none)
      (fun _ => true) id [] ['o']).2
    ('a' :: pcdMarker) ('b' :: pcdMarker) ('x' :: pcdMarker)
    ('a' :: pcdMarker) ('b' :: pcdMarker) [⟨0, 0, 0⟩]
    (by decide) (by decide) (by decide) (by decide) (by decide)

/-- Claim C5: the load path is recovered by truncating the display name
at the FIRST occurrence of `".pcd"` and appending `".pcd"`; a display
name with no `".pcd"` occurrence anywhere is skipped: the loop state,
including the sequence counter, is exactly as if the entry were absent. -/
theorem c5_marker_stripping (load : List Char → Option (List PointXYZ))
    (saveOk : List Char → Bool) (narrow : ℚ → ℚ)
    (display : List (ℚ × ℚ × ℚ)) (out_file : List Char) :
    (∀ (name : List Char) (pos : Nat), findSub pcdMarker name = some pos →
      pcdMarker.isPrefixOf (name.drop pos) = true ∧
      (∀ j, j < pos → pcdMarker.isPrefixOf (name.drop j) = false) ∧
      stripName name = some (name.take pos ++ pcdMarker)) ∧
    (∀ name : List Char, stripName name = none →
      ∀ j, pcdMarker.isPrefixOf (name.drop j) = false) ∧
    (∀ (name : List Char) (rest : List (List Char)) (i : Nat),
      stripName name = none →
      savePointDataLoop load saveOk narrow display out_file (name :: rest) i =
        savePointDataLoop load saveOk narrow display out_file rest i) := by
  refine ⟨?_, ?_, ?_⟩
  · intro name pos h
    obtain ⟨hpref, hmin⟩ := findSub_some pcdMarker name pos h
    refine ⟨hpref, hmin, ?_⟩
    unfold stripName
    rw [h]
    rfl
  · intro name h j
    have hfind : findSub pcdMarker name = none := by
      unfold stripName at h
      exact Option.map_eq_none'.1 h
    exact findSub_none pcdMarker name hfind j
  · intro name rest i h
    exact savePointDataLoop_skip load saveOk narrow display out_file name rest i h

/-- Claim C5 witness: the display name `"a.pcd-0"` is truncated at the
first `".pcd"` (position 1) and `".pcd"` is re-appended, recovering
`"a.pcd"`. -/
theorem c5_marker_stripping_witness :
    stripName ['a', '.', 'p', 'c', 'd', '-', '0'] = some ['a', '.', 'p', 'c', 'd'] :=
  (((c5_marker_stripping (fun _ => none) (fun _ => true) id [] []).1
      ['a', '.', 'p', 'c', 'd', '-', '0'] 1 (by decide)).2.2).trans (by decide)

/-- Claim C6: the `k`-th file written by `savePointData` (0-based) is
named `<out_file><k+1>.pcd` — the sequence number starts at 1 and
advances once per successfully loaded marker entry, skipped entries
consuming none — and on overall success the number of written files
equals the number of marker entries. -/
theorem c6_sequential_filenames (load : List Char → Option (List PointXYZ))
    (saveOk : List Char → Bool) (narrow : ℚ → ℚ)
    (data : List (ℚ × ℚ × ℚ)) (out_file : List Char)
    (actors : List (List Char)) (k : Nat)
    (hk : k < (savePointData load saveOk narrow data out_file actors).2.length) :
    ((savePointData load saveOk narrow data out_file actors).2.getD k
        ([], [])).1 = seqFileName out_file (k + 1) ∧
    ((savePointData load saveOk narrow data out_file actors).1 = true →
      (savePointData load saveOk narrow data out_file actors).2.length =
        (markerEntries actors).length) := by
  constructor
  · have h := savePointDataLoop_written load saveOk narrow (dedup0 data)
      out_file actors 1 k hk
    rw [show (1 : Nat) + k = k + 1 by omega] at h
    exact h
  · intro h
    exact savePointDataLoop_true_length load saveOk narrow (dedup0 data)
      out_file actors 1 h

/-- Claim C6 witness: a registry with a skipped entry followed by one
marker entry writes exactly one file, named with sequence number 1. -/
theorem c6_sequential_filenames_witness :
    ((savePointData (fun _ => some [⟨0, 0, 0⟩]) (fun _ => true) id [] ['o']
        [['n'], 'a' :: pcdMarker]).2.getD 0 ([], [])).1 = seqFileName ['o'] 1 ∧
    (savePointData (fun _ => some [⟨0, 0, 0⟩]) (fun _ => true) id [] ['o']
        [['n'], 'a' :: pcdMarker]).2.length =
      (markerEntries [['n'], 'a' :: pcdMarker]).length :=
  ⟨(c6_sequential_filenames (fun _ => some [⟨0, 0, 0⟩]) (fun _ => true) id [] ['o']
      [['n'], 'a' :: pcdMarker] 0 (by decide)).1,
   (c6_sequential_filenames (fun _ => some [⟨0, 0, 0⟩]) (fun _ => true) id [] ['o']
      [['n'], 'a' :: pcdMarker] 0 (by decide)).2 (by decide)⟩

end PCLVis
